import Mathlib

set_option autoImplicit false

/-!
Verification of the marketplace backend's validation and authentication
logic (services/auth and services/ads) against its specification.

Modelling conventions:
* Go strings are modelled at rune granularity as `List Char` (`GoStr`);
  `golen` is Go's `len`, i.e. the UTF-8 byte length of the rune sequence.
* The Go `unicode` package classifiers (`IsUpper`, `IsLower`, `IsNumber`,
  `IsLetter`) are modelled on their ASCII fragment; theorems about the
  validators therefore quantify over ASCII strings (`Ascii`), where the
  model agrees with Go and where byte indexing/length coincide with rune
  indexing/length.
* `error` values created with `errors.New`/`fmt.Errorf` are modelled as
  constructors of explicit error inductives; each constructor's doc
  comment cites the exact Go message it stands for.
* Go `int`/`int64` values are modelled as `Int`; the one place where the
  source performs arithmetic that can overflow (the pagination offset
  `(page - 1) * limit`) is modelled with explicit two's-complement
  wrap-around (`wrap64`).
-/

namespace Market

/-- Go string, modelled as its sequence of runes. -/
abbrev GoStr := List Char

/-- Number of bytes of the UTF-8 encoding of a rune. -/
def charUtf8Len (c : Char) : Nat :=
  if c.toNat < 0x80 then 1
  else if c.toNat < 0x800 then 2
  else if c.toNat < 0x10000 then 3
  else 4

/-- Go `len(s)`: the byte length of the string. -/
def golen (s : GoStr) : Nat := (s.map charUtf8Len).sum

/-- The string consists of ASCII runes only.  On this domain the embedding
of the `unicode` classifiers below agrees with Go, and `golen` equals the
rune count. -/
def Ascii (s : GoStr) : Prop := ∀ c ∈ s, c.toNat < 0x80

instance (s : GoStr) : Decidable (Ascii s) := by
  unfold Ascii; infer_instance

deriving instance DecidableEq for Except

/-- ASCII fragment of Go `unicode.IsUpper`. -/
def isUpperGo (c : Char) : Bool := 65 ≤ c.toNat && c.toNat ≤ 90

/-- ASCII fragment of Go `unicode.IsLower`. -/
def isLowerGo (c : Char) : Bool := 97 ≤ c.toNat && c.toNat ≤ 122

/-- ASCII fragment of Go `unicode.IsNumber` (the decimal digits). -/
def isNumberGo (c : Char) : Bool := 48 ≤ c.toNat && c.toNat ≤ 57

/-- ASCII fragment of Go `unicode.IsLetter`. -/
def isLetterGo (c : Char) : Bool := isUpperGo c || isLowerGo c

/-- Character class of the login regexp `[a-zA-Z0-9_]`. -/
def isLoginChar (c : Char) : Bool := isLetterGo c || isNumberGo c || c == '_'

/-- Match of the anchored regexp `^[a-zA-Z0-9_]+$` used by `validateLogin`:
the string is non-empty and every rune is in the class. -/
def regexpLoginMatch (s : GoStr) : Bool := !s.isEmpty && s.all isLoginChar

/-- The reasons carried by validation errors.  Each constructor stands for
one `errors.New` message in the source; see the individual doc comments. -/
inductive Reason where
  /-- auth: `ErrInvalidLogin` ("login must be 3-50 characters long, start
  with a letter, and contain only letters, numbers, and underscores"). -/
  | invalidLogin
  /-- auth: `ErrInvalidPassword` ("password must be 8-72 characters long
  and contain at least one uppercase letter, one lowercase letter, one
  number, and one special character"). -/
  | invalidPassword
  /-- auth.Login: "password is required". -/
  | passwordRequired
  /-- ads.validateAd: "title is required". -/
  | titleRequired
  /-- ads.validateAd: "title is too long". -/
  | titleTooLong
  /-- ads.validateAd: "text cannot be empty". -/
  | textEmpty
  /-- ads.validateAd: "user ID is required". -/
  | userIDRequired
  /-- ads.validateAd: "price must be non-negative". -/
  | priceNegative
  /-- ads.CreateAd: "user not found". -/
  | userNotFoundMsg
  /-- ads.CreateAd: "invalid data reference". -/
  | invalidDataReference
  /-- ads.validateListParams: "params cannot be nil". -/
  | nilParams
  /-- ads.validateListParams: "invalid sort_by parameter: must be
  one of price, created_at". -/
  | invalidSortBy
  /-- ads.validateListParams: "invalid order parameter: must be
  one of asc, desc". -/
  | invalidOrder
  /-- ads.validateListParams: "page must be positive". -/
  | negativePage
  /-- ads.validateListParams: "limit must be positive". -/
  | negativeLimit
  /-- ads.validateListParams: "limit cannot exceed 100". -/
  | limitTooLarge
  /-- ads.validateListParams: "min_price must be non-negative". -/
  | negativeMinPrice
  /-- ads.validateListParams: "max_price must be non-negative". -/
  | negativeMaxPrice
  /-- ads.validateListParams: "min_price cannot be greater than
  max_price". -/
  | minAboveMax
deriving DecidableEq, Repr

/-- auth.validateLogin: length 3-50 bytes, first byte a letter, matches
`^[a-zA-Z0-9_]+$`.  On ASCII strings the first byte is the first rune,
modelled by `headD`. -/
def validateLogin (login : GoStr) : Except Reason Unit :=
  if golen login < 3 ∨ 50 < golen login then .error .invalidLogin
  else if isLetterGo (login.headD ' ') = false then .error .invalidLogin
  else if regexpLoginMatch login = false then .error .invalidLogin
  else .ok ()

/-- Go `isSpecialCharacter`'s character set `"!@#$%^&*"`. -/
def specialChars : GoStr := ['!', '@', '#', '$', '%', '^', '&', '*']

/-- ads/auth: membership test of a rune in `specialChars`. -/
def isSpecialCharacter (r : Char) : Bool := specialChars.any (fun c => r == c)

/-- Condition under which the Go `switch` in `validatePassword` takes its
first case and sets `hasUpper`. -/
def chainUpper (c : Char) : Bool := isUpperGo c

/-- Condition for the second `switch` case (sets `hasLower`): the earlier
case did not match. -/
def chainLower (c : Char) : Bool := !isUpperGo c && isLowerGo c

/-- Condition for the third `switch` case (sets `hasNumber`). -/
def chainNumber (c : Char) : Bool := !isUpperGo c && !isLowerGo c && isNumberGo c

/-- Condition for the fourth `switch` case (sets `hasSpecial`). -/
def chainSpecial (c : Char) : Bool :=
  !isUpperGo c && !isLowerGo c && !isNumberGo c && isSpecialCharacter c

/-- The flag-collecting loop of `validatePassword`: the Go `switch` picks
the first matching classifier for each rune and sets the corresponding
flag; the loop breaks early once all four flags hold. -/
def passScan : GoStr → Bool → Bool → Bool → Bool → Bool × Bool × Bool × Bool
  | [], u, l, n, s => (u, l, n, s)
  | c :: rest, u, l, n, s =>
    let u' := u || chainUpper c
    let l' := l || chainLower c
    let n' := n || chainNumber c
    let s' := s || chainSpecial c
    if u' && l' && n' && s' then (u', l', n', s') else passScan rest u' l' n' s'

/-- Final check of `validatePassword` on the four collected flags
(`if !hasUpper || !hasLower || !hasNumber || !hasSpecial`). -/
def checkFlags : Bool × Bool × Bool × Bool → Except Reason Unit
  | (u, l, n, s) =>
    if u = false ∨ l = false ∨ n = false ∨ s = false then .error .invalidPassword
    else .ok ()

/-- auth.validatePassword: length 8-72 bytes and the four character-class
flags collected by `passScan` must all hold. -/
def validatePassword (password : GoStr) : Except Reason Unit :=
  if golen password < 8 ∨ 72 < golen password then .error .invalidPassword
  else checkFlags (passScan password false false false false)

/-! Decimal formatting and scanning.  `formatInt` models Go
`strconv.FormatInt(id, 10)`; `sscanfInt` models scanning with the `%d`
verb of `fmt.Sscanf` (an optional sign followed by a non-empty run of
decimal digits; input past the scanned item is ignored). -/

/-- Decimal digit as a character. -/
def digitChar : Nat → Char
  | 0 => '0' | 1 => '1' | 2 => '2' | 3 => '3' | 4 => '4'
  | 5 => '5' | 6 => '6' | 7 => '7' | 8 => '8' | 9 => '9'
  | _ => ' '

/-- Decimal digits of `n`, most significant first, by fuel-bounded
division (structural recursion so that concrete witnesses evaluate). -/
def natReprAux : Nat → Nat → GoStr
  | 0, _ => []
  | fuel + 1, n =>
    if n < 10 then [digitChar n]
    else natReprAux fuel (n / 10) ++ [digitChar (n % 10)]

/-- Decimal representation of a natural number, most significant digit
first (`n` itself is always enough fuel). -/
def natRepr (n : Nat) : GoStr := natReprAux (n + 1) n

/-- Go `strconv.FormatInt(i, 10)`. -/
def formatInt (i : Int) : GoStr :=
  if i < 0 then '-' :: natRepr i.natAbs else natRepr i.toNat

/-- Numeric value of a run of decimal digit characters. -/
def digitsVal (ds : GoStr) : Nat := ds.foldl (fun a c => a * 10 + (c.toNat - 48)) 0

/-- Value of the leading run of decimal digits; `none` when there is no
leading digit. -/
def parseLeadingDigits (cs : GoStr) : Option Nat :=
  let ds := cs.takeWhile isNumberGo
  if ds.isEmpty then none else some (digitsVal ds)

/-- Scanning an integer with the `%d` verb of `fmt.Sscanf`. -/
def sscanfInt (cs : GoStr) : Option Int :=
  match cs with
  | [] => none
  | c :: rest =>
    if c = '-' then (parseLeadingDigits rest).map (fun n => -(Int.ofNat n))
    else if c = '+' then (parseLeadingDigits rest).map (fun n => Int.ofNat n)
    else (parseLeadingDigits (c :: rest)).map (fun n => Int.ofNat n)

/-! The authentication service.  The user store behind
`storage.UserRepository` is an external collaborator (its SQL
implementation is out of the embedding's scope), so it is modelled as an
abstract state type with the three interface operations; `CreateUser`
mutates the passed user (assigning its ID) and the database, modelled by
returning the stored user and the new state.  `bcrypt` is modelled by an
abstract hash function plus comparison predicate (`compareOk h p` is
`CompareHashAndPassword(h, p) == nil`); hashing errors cannot occur for
validated passwords (length at most 72 bytes), so `genHash` is total.
JWT signing is modelled by a record carrying the claims, the signing
method kind and the secret used to produce the signature. -/

/-- Store-layer sentinel errors (`storage` package). -/
inductive StoreErr where
  | userNotFound
  | userExists
  | adExists
  | foreignKeyViolation
  | adNotFound
  | other
deriving DecidableEq, Repr

/-- Service-layer error values as observed by the transport layer. -/
inductive SvcErr where
  /-- `services.ErrInvalidInput` wrapped with a specific reason
  (`fmt.Errorf("%w: %v", services.ErrInvalidInput, err)`). -/
  | invalidInput (r : Reason)
  /-- `services.ErrInvalidCredentials`. -/
  | invalidCredentials
  /-- `services.ErrUserExists`. -/
  | userExists
  /-- `services.ErrConflict`. -/
  | conflict
  /-- `services.ErrUserNotFound`. -/
  | userNotFound
  /-- a store failure wrapped with a context string (internal error). -/
  | internal (e : StoreErr)
  /-- the raw store error passed through unchanged (`return "", err` in
  `Login`). -/
  | storeErr (e : StoreErr)
  /-- token parse/validation failures in `ParseToken`. -/
  | tokenInvalid
deriving DecidableEq, Repr

/-- domain.User (creation timestamp omitted: never inspected by the
services). -/
structure User where
  id : Int
  login : GoStr
  passwordHash : GoStr
deriving DecidableEq, Repr

/-- storage.UserRepository over an abstract store state `σ`. -/
structure UserStore (σ : Type) where
  createUser : σ → User → Except StoreErr (User × σ)
  findByLogin : σ → GoStr → Except StoreErr User
  findUserByID : σ → Int → Except StoreErr User

/-- Model of the bcrypt collaborator. -/
structure Bcrypt where
  genHash : GoStr → GoStr
  compareOk : GoStr → GoStr → Bool

/-- Signing method kind: the key function accepts exactly the HMAC
family (`jwt.SigningMethodHMAC`). -/
inductive Alg where
  | hmacSHA256
  | nonHMAC
deriving DecidableEq, Repr

/-- A signed JWT: claims (`sub`, `iat`, `exp`), signing method, and the
secret that produced the signature. -/
structure Token where
  alg : Alg
  sub : GoStr
  iat : Int
  exp : Int
  sig : GoStr
deriving DecidableEq, Repr

/-- auth.Service.generateToken: `sub` is the user ID in decimal,
`iat = now`, `exp = now + tokenTTL`, signed HS256 with the service
secret. -/
def generateToken (secret : GoStr) (tokenTTL now : Int) (u : User) : Token :=
  { alg := .hmacSHA256, sub := formatInt u.id, iat := now, exp := now + tokenTTL,
    sig := secret }

/-- auth.Service.Register. -/
def Register {σ : Type} (st : UserStore σ) (bc : Bcrypt) (secret : GoStr)
    (tokenTTL now : Int) (s : σ) (login password : GoStr) :
    Except SvcErr (Token × User × σ) :=
  match validateLogin login with
  | .error e => .error (.invalidInput e)
  | .ok _ =>
  match validatePassword password with
  | .error e => .error (.invalidInput e)
  | .ok _ =>
  let passHash := bc.genHash password
  match st.createUser s { id := 0, login := login, passwordHash := passHash } with
  | .error e => if e = .userExists then .error .userExists else .error (.internal e)
  | .ok (u, s2) => .ok (generateToken secret tokenTTL now u, u, s2)

/-- auth.Service.Login. -/
def Login {σ : Type} (st : UserStore σ) (bc : Bcrypt) (secret : GoStr)
    (tokenTTL now : Int) (s : σ) (login password : GoStr) : Except SvcErr Token :=
  match validateLogin login with
  | .error e => .error (.invalidInput e)
  | .ok _ =>
  if password = [] then .error (.invalidInput .passwordRequired)
  else
    match st.findByLogin s login with
    | .error e =>
      if e = .userNotFound then .error .invalidCredentials else .error (.storeErr e)
    | .ok u =>
      if bc.compareOk u.passwordHash password then .ok (generateToken secret tokenTTL now u)
      else .error .invalidCredentials

/-- auth.Service.ParseToken: reject a non-HMAC signing method, a bad
signature or an expired token; then scan the subject into an ID and
resolve it via the store. -/
def ParseToken {σ : Type} (st : UserStore σ) (s : σ) (secret : GoStr) (now : Int)
    (tok : Token) : Except SvcErr User :=
  if tok.alg ≠ Alg.hmacSHA256 then .error .tokenInvalid
  else if tok.sig ≠ secret then .error .tokenInvalid
  else if tok.exp ≤ now then .error .tokenInvalid
  else
    match sscanfInt tok.sub with
    | none => .error .tokenInvalid
    | some userID =>
      match st.findUserByID s userID with
      | .error e =>
        if e = .userNotFound then .error .userNotFound else .error (.internal e)
      | .ok u => .ok u

/-! The ads service (services/ads).  Its two collaborators, the ad store
and the user lookup, are modelled as oracle functions. -/

/-- domain.Ad (creation timestamp omitted: never inspected by the
service). -/
structure Ad where
  id : Int
  userID : Int
  title : GoStr
  text : GoStr
  imageURL : GoStr
  price : Int
  authorLogin : GoStr
deriving DecidableEq, Repr

/-- ads.Service.validateAd. -/
def validateAd (ad : Ad) : Except Reason Unit :=
  if ad.title = [] then .error .titleRequired
  else if 120 < golen ad.title then .error .titleTooLong
  else if ad.text = [] then .error .textEmpty
  else if ad.userID = 0 then .error .userIDRequired
  else if ad.price < 0 then .error .priceNegative
  else .ok ()

/-- Collaborators of the ads service: `UserRepository.FindUserByID` and
`AdRepository.CreateAd`. -/
structure AdsEnv where
  findUserByID : Int → Except StoreErr User
  createAd : Ad → Except StoreErr Int

/-- ads.Service.CreateAd: validate, resolve the author's login by
`userID` (a store not-found becomes a validation error), denormalize the
login onto the ad, persist (foreign-key violation becomes a validation
error, duplicate becomes a conflict, anything else an internal
error). -/
def CreateAd (env : AdsEnv) (ad : Ad) : Except SvcErr Int :=
  match validateAd ad with
  | .error r => .error (.invalidInput r)
  | .ok _ =>
    match env.findUserByID ad.userID with
    | .error e =>
      if e = .userNotFound then .error (.invalidInput .userNotFoundMsg)
      else .error (.internal e)
    | .ok user =>
      match env.createAd { ad with authorLogin := user.login } with
      | .error e =>
        if e = .foreignKeyViolation then .error (.invalidInput .invalidDataReference)
        else if e = .adExists then .error .conflict
        else .error (.internal e)
      | .ok adID => .ok adID

/-- Two's-complement wrap-around of 64-bit signed arithmetic: Go `int`
overflow is defined to wrap. -/
def wrap64 (n : Int) : Int := (n + 2 ^ 63) % 2 ^ 64 - 2 ^ 63

/-- domain.ListAdsParams.  `sortBy`/`order` are only ever compared with
fixed literals, so they are kept as Lean strings; absent optional prices
are `none` (a nil pointer in Go). -/
structure ListAdsParams where
  sortBy : String
  order : String
  page : Int
  limit : Int
  minPrice : Option Int
  maxPrice : Option Int
deriving DecidableEq, Repr

/-- domain.ListAdsParams.GetOffset: `(page - 1) * limit` in Go `int`
arithmetic (wrapping), and 0 when `page <= 1`. -/
def ListAdsParams.GetOffset (p : ListAdsParams) : Int :=
  if p.page ≤ 1 then 0 else wrap64 (wrap64 (p.page - 1) * p.limit)

/-- domain.ListAdsParams.SetDefaults. -/
def ListAdsParams.SetDefaults (p : ListAdsParams) : ListAdsParams :=
  { p with
    sortBy := if p.sortBy = "" then "created_at" else p.sortBy,
    order := if p.order = "" then "desc" else p.order,
    page := if p.page ≤ 0 then 1 else p.page,
    limit := if p.limit ≤ 0 then 10 else p.limit }

/-- Body of ads.Service.validateListParams after the nil check. -/
def validateListParamsSome (p : ListAdsParams) : Except Reason Unit :=
  if p.sortBy ≠ "" ∧ p.sortBy ≠ "price" ∧ p.sortBy ≠ "created_at" then
    .error .invalidSortBy
  else if p.order ≠ "" ∧ p.order ≠ "asc" ∧ p.order ≠ "desc" then
    .error .invalidOrder
  else if p.page < 0 then .error .negativePage
  else if p.limit < 0 then .error .negativeLimit
  else if 100 < p.limit then .error .limitTooLarge
  else if (match p.minPrice with | some m => decide (m < 0) | none => false) then
    .error .negativeMinPrice
  else if (match p.maxPrice with | some m => decide (m < 0) | none => false) then
    .error .negativeMaxPrice
  else if (match p.minPrice, p.maxPrice with
           | some a, some b => decide (b < a) | _, _ => false) then
    .error .minAboveMax
  else .ok ()

/-- ads.Service.validateListParams: a nil params pointer is rejected
first. -/
def validateListParams : Option ListAdsParams → Except Reason Unit
  | none => .error .nilParams
  | some p => validateListParamsSome p

/-- ads.Service.ListAds: validate, fill defaults, delegate to the store
(`AdRepository.ListAds`, modelled as an oracle), wrapping store failures
as internal errors.  A nil params pointer fails validation before
`SetDefaults` would dereference it. -/
def ListAds (store : ListAdsParams → Except StoreErr (List Ad)) :
    Option ListAdsParams → Except SvcErr (List Ad)
  | none => .error (.invalidInput .nilParams)
  | some p =>
    match validateListParamsSome p with
    | .error r => .error (.invalidInput r)
    | .ok _ =>
      match store p.SetDefaults with
      | .error e => .error (.internal e)
      | .ok ads => .ok ads

/-- Listing-query validation as the specification states it: the checks
are applied in the order sortBy, order, page, limit, minPrice, maxPrice,
price-window relation, and the first violated check's error is returned
(no aggregation of several violations). -/
def specFirstViolation (p : ListAdsParams) : Except Reason Unit :=
  if p.sortBy ≠ "" ∧ p.sortBy ≠ "price" ∧ p.sortBy ≠ "created_at" then
    .error .invalidSortBy
  else if p.order ≠ "" ∧ p.order ≠ "asc" ∧ p.order ≠ "desc" then
    .error .invalidOrder
  else if p.page < 0 then .error .negativePage
  else if p.limit < 0 then .error .negativeLimit
  else if 100 < p.limit then .error .limitTooLarge
  else if (match p.minPrice with | some m => decide (m < 0) | none => false) then
    .error .negativeMinPrice
  else if (match p.maxPrice with | some m => decide (m < 0) | none => false) then
    .error .negativeMaxPrice
  else if (match p.minPrice, p.maxPrice with
           | some a, some b => decide (b < a) | _, _ => false) then
    .error .minAboveMax
  else .ok ()

/-! Concrete instances used to witness the theorems on sample inputs. -/

/-- Sample password. -/
def pwDemo : GoStr := ['P', 'a', 's', 's', 'w', '0', 'r', 'd', '!']

/-- Sample login. -/
def lgDemo : GoStr := ['a', 'b', 'c']

/-- Sample signing secret. -/
def demoSecret : GoStr := ['k']

/-- Reference in-memory user store: IDs are assigned sequentially,
lookups scan the list. -/
def demoStore : UserStore (List User) where
  createUser := fun s u =>
    if s.any (fun v => v.login == u.login) then .error .userExists
    else
      let stored : User := { u with id := Int.ofNat s.length + 1 }
      .ok (stored, stored :: s)
  findByLogin := fun s lg =>
    match s.find? (fun v => v.login == lg) with
    | some u => .ok u
    | none => .error .userNotFound
  findUserByID := fun s i =>
    match s.find? (fun v => v.id == i) with
    | some u => .ok u
    | none => .error .userNotFound

/-- Reference model of the bcrypt collaborator: the hash tags the
password, comparison checks the tag. -/
def demoBcrypt : Bcrypt where
  genHash := fun p => 'h' :: p
  compareOk := fun h p => h == 'h' :: p

/-- User created by registering `lgDemo`/`pwDemo` against the empty
`demoStore` state. -/
def demoUser1 : User := { id := 1, login := lgDemo, passwordHash := 'h' :: pwDemo }

/-- Store state after that registration. -/
def demoState1 : List User := [demoUser1]

/-- Ads-service environment whose user lookup reports not-found. -/
def envUserMissing : AdsEnv where
  findUserByID := fun _ => .error .userNotFound
  createAd := fun _ => .ok 7

/-- A field-valid sample ad. -/
def adDemo : Ad :=
  { id := 0, userID := 1, title := ['T'], text := ['x'], imageURL := [], price := 0,
    authorLogin := [] }

/-- Sample ad with an empty title. -/
def adNoTitle : Ad :=
  { id := 0, userID := 1, title := [], text := ['x'], imageURL := [], price := 0,
    authorLogin := [] }

/-- Sample ad with a negative price. -/
def adNegPrice : Ad :=
  { id := 0, userID := 1, title := ['T'], text := ['x'], imageURL := [], price := -5,
    authorLogin := [] }

/-- Listing query whose offset computation overflows 64-bit `int`. -/
def pOverflow : ListAdsParams :=
  { sortBy := "", order := "", page := 2 ^ 62, limit := 100, minPrice := none,
    maxPrice := none }

/-- Listing query whose wrapped offset is negative. -/
def pOverflowNeg : ListAdsParams :=
  { sortBy := "", order := "", page := 2 ^ 57 + 1, limit := 65, minPrice := none,
    maxPrice := none }

/-- Listing query with a valid price window. -/
def pMinMax : ListAdsParams :=
  { sortBy := "", order := "", page := 0, limit := 0, minPrice := some 100,
    maxPrice := some 500 }

/-- Listing query with an inverted price window. -/
def pMinMaxBad : ListAdsParams :=
  { sortBy := "", order := "", page := 0, limit := 0, minPrice := some 500,
    maxPrice := some 100 }

/-- Listing query for the page-3/limit-10 boundary example. -/
def pPage3 : ListAdsParams :=
  { sortBy := "", order := "", page := 3, limit := 10, minPrice := none,
    maxPrice := none }

/-- Listing query at the upper limit boundary. -/
def pLimit100 : ListAdsParams :=
  { sortBy := "", order := "", page := 0, limit := 100, minPrice := none,
    maxPrice := none }

/-- Listing query just above the upper limit boundary. -/
def pLimit101 : ListAdsParams :=
  { sortBy := "", order := "", page := 0, limit := 101, minPrice := none,
    maxPrice := none }

/-- Listing query with an unknown sort key. -/
def pBadSort : ListAdsParams :=
  { sortBy := "name", order := "", page := 0, limit := 0, minPrice := none,
    maxPrice := none }

/-- Trivial ad-store listing oracle. -/
def demoListStore : ListAdsParams → Except StoreErr (List Ad) := fun _ => .ok []

theorem golen_ascii (s : GoStr) (h : Ascii s) : golen s = s.length := by
  induction s with
  | nil => rfl
  | cons c t ih =>
    have hc : c.toNat < 0x80 := h c (List.mem_cons_self c t)
    have ht : Ascii t := fun x hx => h x (List.mem_cons_of_mem c hx)
    have ih' := ih ht
    simp only [golen, List.map_cons, List.sum_cons, charUtf8Len, if_pos hc,
      List.length_cons] at ih' ⊢
    omega

theorem passScan_eq (p : GoStr) : ∀ u l n s : Bool,
    passScan p u l n s =
      (u || p.any chainUpper, l || p.any chainLower,
       n || p.any chainNumber, s || p.any chainSpecial) := by
  induction p with
  | nil => intro u l n s; simp [passScan]
  | cons c rest ih =>
    intro u l n s
    simp only [passScan, List.any_cons]
    by_cases h : ((u || chainUpper c) && (l || chainLower c) &&
        (n || chainNumber c) && (s || chainSpecial c)) = true
    · rw [if_pos h]
      simp only [Bool.and_eq_true] at h
      obtain ⟨⟨⟨hu, hl⟩, hn⟩, hs⟩ := h
      simp only [← Bool.or_assoc, hu, hl, hn, hs, Bool.true_or]
    · rw [if_neg h, ih]
      simp only [Bool.or_assoc]

theorem passScan_spec (p : GoStr) :
    passScan p false false false false =
      (p.any chainUpper, p.any chainLower, p.any chainNumber, p.any chainSpecial) := by
  simp [passScan_eq]

theorem isLowerGo_not_upper {c : Char} (h : isLowerGo c = true) : isUpperGo c = false := by
  simp only [isLowerGo, isUpperGo, Bool.and_eq_true, decide_eq_true_eq] at h
  simp only [isUpperGo, Bool.and_eq_false_iff, decide_eq_false_iff_not]
  omega

theorem isNumberGo_not_letter {c : Char} (h : isNumberGo c = true) :
    isUpperGo c = false ∧ isLowerGo c = false := by
  simp only [isNumberGo, Bool.and_eq_true, decide_eq_true_eq] at h
  simp only [isUpperGo, isLowerGo, Bool.and_eq_false_iff, decide_eq_false_iff_not]
  omega

theorem isSpecial_not_alnum {c : Char} (h : isSpecialCharacter c = true) :
    isUpperGo c = false ∧ isLowerGo c = false ∧ isNumberGo c = false := by
  simp only [isSpecialCharacter, specialChars, List.any_cons, List.any_nil,
    Bool.or_eq_true, beq_iff_eq, Bool.or_false] at h
  rcases h with h | h | h | h | h | h | h | h <;> subst h <;> decide

theorem chainLower_eq (c : Char) : chainLower c = isLowerGo c := by
  cases hl : isLowerGo c
  · simp [chainLower, hl]
  · simp [chainLower, hl, isLowerGo_not_upper hl]

theorem chainNumber_eq (c : Char) : chainNumber c = isNumberGo c := by
  cases hn : isNumberGo c
  · simp [chainNumber, hn]
  · obtain ⟨h1, h2⟩ := isNumberGo_not_letter hn
    simp [chainNumber, hn, h1, h2]

theorem chainSpecial_eq (c : Char) : chainSpecial c = isSpecialCharacter c := by
  cases hs : isSpecialCharacter c
  · simp [chainSpecial, hs]
  · obtain ⟨h1, h2, h3⟩ := isSpecial_not_alnum hs
    simp [chainSpecial, hs, h1, h2, h3]

theorem validatePassword_ok_iff (p : GoStr) :
    validatePassword p = .ok () ↔
      (8 ≤ golen p ∧ golen p ≤ 72 ∧
       (∃ c ∈ p, isUpperGo c = true) ∧ (∃ c ∈ p, isLowerGo c = true) ∧
       (∃ c ∈ p, isNumberGo c = true) ∧ (∃ c ∈ p, isSpecialCharacter c = true)) := by
  have hcu : chainUpper = isUpperGo := rfl
  have hcl : chainLower = isLowerGo := funext chainLower_eq
  have hcn : chainNumber = isNumberGo := funext chainNumber_eq
  have hcs : chainSpecial = isSpecialCharacter := funext chainSpecial_eq
  unfold validatePassword
  rw [passScan_spec, hcu, hcl, hcn, hcs]
  simp only [checkFlags]
  by_cases hlen : golen p < 8 ∨ 72 < golen p
  · rw [if_pos hlen]
    constructor
    · intro h; exact absurd h (by simp)
    · rintro ⟨h1, h2, -⟩; omega
  · rw [if_neg hlen]
    push_neg at hlen
    by_cases hflags : p.any isUpperGo = false ∨ p.any isLowerGo = false ∨
        p.any isNumberGo = false ∨ p.any isSpecialCharacter = false
    · rw [if_pos hflags]
      constructor
      · intro h; exact absurd h (by simp)
      · rintro ⟨-, -, h1, h2, h3, h4⟩
        rw [← List.any_eq_true] at h1 h2 h3 h4
        simp only [h1, h2, h3, h4] at hflags
        rcases hflags with h | h | h | h <;> exact absurd h (by simp)
    · rw [if_neg hflags]
      push_neg at hflags
      obtain ⟨h1, h2, h3, h4⟩ := hflags
      simp only [ne_eq, Bool.not_eq_false] at h1 h2 h3 h4
      rw [List.any_eq_true] at h1 h2 h3 h4
      simp only [true_iff, eq_self_iff_true]
      exact ⟨hlen.1, hlen.2, h1, h2, h3, h4⟩

theorem golen_eq_zero {s : GoStr} (h : s = []) : golen s = 0 := by
  subst h; rfl

theorem ne_nil_of_golen {s : GoStr} {k : Nat} (hk : 0 < k) (h : k ≤ golen s) : s ≠ [] := by
  intro hnil
  rw [golen_eq_zero hnil] at h
  omega

theorem validateLogin_ok_iff (l : GoStr) :
    validateLogin l = .ok () ↔
      (3 ≤ golen l ∧ golen l ≤ 50 ∧ isLetterGo (l.headD ' ') = true ∧
       l.all isLoginChar = true) := by
  unfold validateLogin
  by_cases hlen : golen l < 3 ∨ 50 < golen l
  · rw [if_pos hlen]
    constructor
    · intro h; exact absurd h (by simp)
    · rintro ⟨h1, h2, -⟩; omega
  · rw [if_neg hlen]
    push_neg at hlen
    have hne : l ≠ [] := ne_nil_of_golen (by omega) hlen.1
    by_cases hfirst : isLetterGo (l.headD ' ') = false
    · rw [if_pos hfirst]
      constructor
      · intro h; exact absurd h (by simp)
      · rintro ⟨-, -, h3, -⟩; rw [hfirst] at h3; exact absurd h3 (by simp)
    · rw [if_neg hfirst]
      rw [Bool.not_eq_false] at hfirst
      by_cases hre : regexpLoginMatch l = false
      · rw [if_pos hre]
        unfold regexpLoginMatch at hre
        rw [Bool.and_eq_false_iff] at hre
        constructor
        · intro h; exact absurd h (by simp)
        · rintro ⟨-, -, -, h4⟩
          rcases hre with h | h
          · simp only [Bool.not_eq_false', List.isEmpty_eq_true] at h
            exact absurd h hne
          · rw [h] at h4; exact absurd h4 (by simp)
      · rw [if_neg hre]
        rw [Bool.not_eq_false] at hre
        unfold regexpLoginMatch at hre
        rw [Bool.and_eq_true] at hre
        simp only [true_iff, eq_self_iff_true]
        exact ⟨hlen.1, hlen.2, hfirst, hre.2⟩

theorem digitChar_toNat {d : Nat} (h : d < 10) : (digitChar d).toNat = 48 + d := by
  interval_cases d <;> rfl

theorem isNumberGo_digitChar {d : Nat} (h : d < 10) : isNumberGo (digitChar d) = true := by
  interval_cases d <;> rfl

theorem digitsVal_append (ds : GoStr) (c : Char) :
    digitsVal (ds ++ [c]) = digitsVal ds * 10 + (c.toNat - 48) := by
  simp [digitsVal, List.foldl_append]

theorem natReprAux_val : ∀ fuel n : Nat, n < 10 ^ fuel →
    digitsVal (natReprAux fuel n) = n := by
  intro fuel
  induction fuel with
  | zero =>
    intro n h
    simp only [pow_zero, Nat.lt_one_iff] at h
    subst h
    rfl
  | succ fuel ih =>
    intro n h
    unfold natReprAux
    by_cases hn : n < 10
    · rw [if_pos hn]
      simp [digitsVal, digitChar_toNat hn]
    · rw [if_neg hn, digitsVal_append]
      have hdiv : n / 10 < 10 ^ fuel := by
        rw [Nat.div_lt_iff_lt_mul (by norm_num)]
        calc n < 10 ^ (fuel + 1) := h
          _ = 10 ^ fuel * 10 := by ring
      rw [ih (n / 10) hdiv, digitChar_toNat (Nat.mod_lt n (by norm_num))]
      omega

theorem natReprAux_digits : ∀ fuel n : Nat, ∀ c ∈ natReprAux fuel n,
    isNumberGo c = true := by
  intro fuel
  induction fuel with
  | zero => intro n c hc; simp [natReprAux] at hc
  | succ fuel ih =>
    intro n c hc
    unfold natReprAux at hc
    by_cases hn : n < 10
    · rw [if_pos hn] at hc
      simp only [List.mem_singleton] at hc
      subst hc
      exact isNumberGo_digitChar hn
    · rw [if_neg hn] at hc
      rw [List.mem_append] at hc
      rcases hc with hc | hc
      · exact ih (n / 10) c hc
      · simp only [List.mem_singleton] at hc
        subst hc
        exact isNumberGo_digitChar (Nat.mod_lt n (by norm_num))

theorem natRepr_all_digits (n : Nat) : ∀ c ∈ natRepr n, isNumberGo c = true :=
  natReprAux_digits (n + 1) n

theorem takeWhile_of_all {α : Type} (p : α → Bool) (l : List α)
    (h : ∀ a ∈ l, p a = true) : l.takeWhile p = l := by
  induction l with
  | nil => rfl
  | cons a t ih =>
    have ha : p a = true := h a (List.mem_cons_self a t)
    simp only [List.takeWhile_cons, ha, if_true]
    rw [ih (fun x hx => h x (List.mem_cons_of_mem _ hx))]

theorem natRepr_ne_nil (n : Nat) : natRepr n ≠ [] := by
  unfold natRepr natReprAux
  by_cases hn : n < 10
  · rw [if_pos hn]; simp
  · rw [if_neg hn]; simp

theorem digitsVal_natRepr (n : Nat) : digitsVal (natRepr n) = n := by
  refine natReprAux_val (n + 1) n ?_
  calc n < 10 ^ n := Nat.lt_pow_self (by norm_num) n
    _ ≤ 10 ^ (n + 1) := Nat.pow_le_pow_right (by norm_num) (Nat.le_succ n)

theorem parseLeadingDigits_natRepr (n : Nat) : parseLeadingDigits (natRepr n) = some n := by
  unfold parseLeadingDigits
  rw [takeWhile_of_all _ _ (natRepr_all_digits n)]
  simp only [List.isEmpty_eq_true]
  rw [if_neg (natRepr_ne_nil n)]
  rw [digitsVal_natRepr]

/-- The decimal subject written by token generation scans back to the
identical integer. -/
theorem sscanfInt_formatInt (i : Int) : sscanfInt (formatInt i) = some i := by
  unfold formatInt
  by_cases hi : i < 0
  · rw [if_pos hi]
    have hstep : sscanfInt ('-' :: natRepr i.natAbs) =
        (parseLeadingDigits (natRepr i.natAbs)).map (fun n => -(Int.ofNat n)) := rfl
    rw [hstep, parseLeadingDigits_natRepr]
    simp only [Option.map_some']
    congr 1
    simp only [Int.ofNat_eq_coe]
    omega
  · rw [if_neg hi]
    obtain ⟨c, rest, hcr⟩ : ∃ c rest, natRepr i.toNat = c :: rest := by
      cases hr : natRepr i.toNat with
      | nil => exact absurd hr (natRepr_ne_nil _)
      | cons c rest => exact ⟨c, rest, rfl⟩
    have hdig : isNumberGo c = true :=
      natRepr_all_digits i.toNat c (by rw [hcr]; exact List.mem_cons_self _ _)
    have hm : c ≠ '-' := by
      intro hc; subst hc; exact absurd hdig (by decide)
    have hp : c ≠ '+' := by
      intro hc; subst hc; exact absurd hdig (by decide)
    have hstep : sscanfInt (c :: rest) =
        (parseLeadingDigits (c :: rest)).map (fun n => Int.ofNat n) := by
      simp only [sscanfInt]
      rw [if_neg hm, if_neg hp]
    rw [hcr, hstep, ← hcr, parseLeadingDigits_natRepr]
    simp only [Option.map_some']
    congr 1
    simp only [Int.ofNat_eq_coe]
    omega

theorem wrap64_eq_self {n : Int} (h1 : -(2 ^ 63) ≤ n) (h2 : n < 2 ^ 63) :
    wrap64 n = n := by
  unfold wrap64
  rw [Int.emod_eq_of_lt (by omega) (by omega)]
  omega

theorem checkFlags_shape (x : Bool × Bool × Bool × Bool) :
    checkFlags x = .ok () ∨ checkFlags x = .error .invalidPassword := by
  obtain ⟨u, l, n, s⟩ := x
  by_cases hf : u = false ∨ l = false ∨ n = false ∨ s = false
  · right; simp [checkFlags, hf]
  · left; simp [checkFlags, hf]

theorem validatePassword_shape (p : GoStr) :
    validatePassword p = .ok () ∨ validatePassword p = .error .invalidPassword := by
  unfold validatePassword
  by_cases hc : golen p < 8 ∨ 72 < golen p
  · rw [if_pos hc]; right; rfl
  · rw [if_neg hc]; exact checkFlags_shape _

theorem validateLogin_shape (l : GoStr) :
    validateLogin l = .ok () ∨ validateLogin l = .error .invalidLogin := by
  unfold validateLogin
  by_cases h1 : golen l < 3 ∨ 50 < golen l
  · rw [if_pos h1]; right; rfl
  · rw [if_neg h1]
    by_cases h2 : isLetterGo (l.headD ' ') = false
    · rw [if_pos h2]; right; rfl
    · rw [if_neg h2]
      by_cases h3 : regexpLoginMatch l = false
      · rw [if_pos h3]; right; rfl
      · rw [if_neg h3]; left; rfl

theorem createAd_of_validate_error {ad : Ad} {r : Reason}
    (h : validateAd ad = .error r) (env : AdsEnv) :
    CreateAd env ad = .error (.invalidInput r) := by
  unfold CreateAd
  rw [h]

theorem validateAd_ok_iff (ad : Ad) :
    validateAd ad = .ok () ↔
      (ad.title ≠ [] ∧ golen ad.title ≤ 120 ∧ ad.text ≠ [] ∧ ad.userID ≠ 0 ∧
       0 ≤ ad.price) := by
  unfold validateAd
  split_ifs with h1 h2 h3 h4 h5
  · exact ⟨fun h => absurd h (by simp), fun ⟨a1, _, _, _, _⟩ => absurd h1 a1⟩
  · exact ⟨fun h => absurd h (by simp), fun ⟨_, a2, _, _, _⟩ => absurd h2 (by omega)⟩
  · exact ⟨fun h => absurd h (by simp), fun ⟨_, _, a3, _, _⟩ => absurd h3 a3⟩
  · exact ⟨fun h => absurd h (by simp), fun ⟨_, _, _, a4, _⟩ => absurd h4 a4⟩
  · exact ⟨fun h => absurd h (by simp), fun ⟨_, _, _, _, a5⟩ => absurd h5 (by omega)⟩
  · exact ⟨fun _ => ⟨h1, by omega, h3, h4, by omega⟩, fun _ => rfl⟩

/-- C2: for ASCII passwords, `validatePassword` succeeds exactly when the
length is 8-72 and the four character classes (uppercase, lowercase,
digit, and the special set `!@#$%^&*`) are each represented; every
failure carries the single invalid-password reason and surfaces from
`Register` as the validation-error kind wrapping that reason. -/
theorem C2_validatePassword_policy (p : GoStr) (hA : Ascii p) :
    (validatePassword p = .ok () ↔
      (8 ≤ p.length ∧ p.length ≤ 72 ∧
       (∃ c ∈ p, isUpperGo c = true) ∧ (∃ c ∈ p, isLowerGo c = true) ∧
       (∃ c ∈ p, isNumberGo c = true) ∧ (∃ c ∈ p, isSpecialCharacter c = true))) ∧
    (∀ r, validatePassword p = .error r → r = .invalidPassword) ∧
    (∀ (σ : Type) (st : UserStore σ) (bc : Bcrypt) (secret : GoStr) (ttl now : Int)
       (s : σ) (lg : GoStr), validateLogin lg = .ok () →
       validatePassword p = .error .invalidPassword →
       Register st bc secret ttl now s lg p = .error (.invalidInput .invalidPassword)) := by
  refine ⟨?_, ?_, ?_⟩
  · rw [← golen_ascii p hA]
    exact validatePassword_ok_iff p
  · intro r hr
    rcases validatePassword_shape p with h | h
    · rw [h] at hr; exact absurd hr (by simp)
    · rw [h] at hr; injection hr with h'; exact h'.symm
  · intro σ st bc secret ttl now s lg hlg hp
    unfold Register
    rw [hlg, hp]

/-- Witness for C2 at the concrete password `pwDemo`. -/
theorem C2_witness : Ascii pwDemo ∧ validatePassword pwDemo = .ok () :=
  ⟨by decide, (C2_validatePassword_policy pwDemo (by decide)).1.mpr (by decide)⟩

/-- C3: for ASCII logins, `validateLogin` succeeds exactly when the
length is 3-50, the first character is a letter and every character lies
in `[A-Za-z0-9_]`; every failure carries the single invalid-login reason
and surfaces from both `Register` and `Login` as the validation-error
kind wrapping that reason. -/
theorem C3_validateLogin_policy (l : GoStr) (hA : Ascii l) :
    (validateLogin l = .ok () ↔
      (3 ≤ l.length ∧ l.length ≤ 50 ∧
       (∃ c, l.head? = some c ∧ isLetterGo c = true) ∧
       (∀ c ∈ l, isLoginChar c = true))) ∧
    (∀ r, validateLogin l = .error r → r = .invalidLogin) ∧
    (∀ (σ : Type) (st : UserStore σ) (bc : Bcrypt) (secret : GoStr) (ttl now : Int)
       (s : σ) (pw : GoStr),
       validateLogin l = .error .invalidLogin →
       Register st bc secret ttl now s l pw = .error (.invalidInput .invalidLogin) ∧
       Login st bc secret ttl now s l pw = .error (.invalidInput .invalidLogin)) := by
  refine ⟨?_, ?_, ?_⟩
  · rw [← golen_ascii l hA, validateLogin_ok_iff]
    constructor
    · rintro ⟨h1, h2, h3, h4⟩
      refine ⟨h1, h2, ?_, ?_⟩
      · have hne : l ≠ [] := ne_nil_of_golen (by omega) h1
        cases l with
        | nil => exact absurd rfl hne
        | cons c t => exact ⟨c, rfl, by simpa using h3⟩
      · intro c hc
        exact List.all_eq_true.mp h4 c hc
    · rintro ⟨h1, h2, ⟨c, hc, hcl⟩, h4⟩
      refine ⟨h1, h2, ?_, List.all_eq_true.mpr h4⟩
      cases l with
      | nil => simp at hc
      | cons d t =>
        simp only [List.head?_cons, Option.some.injEq] at hc
        subst hc
        simpa using hcl
  · intro r hr
    rcases validateLogin_shape l with h | h
    · rw [h] at hr; exact absurd hr (by simp)
    · rw [h] at hr; injection hr with h'; exact h'.symm
  · intro σ st bc secret ttl now s pw hl
    constructor
    · unfold Register; rw [hl]
    · unfold Login; rw [hl]

/-- Witness for C3 at the concrete login `lgDemo`. -/
theorem C3_witness : Ascii lgDemo ∧ validateLogin lgDemo = .ok () :=
  ⟨by decide, (C3_validateLogin_policy lgDemo (by decide)).1.mpr (by decide)⟩

/-- C1: with a well-formed login and non-empty password, a store
not-found and a stored-hash mismatch both make `Login` return the
identical invalid-credentials error value, which is distinct from the
not-found kind and from any raw store error. -/
theorem C1_login_indistinguishable {σ : Type} (st : UserStore σ) (bc : Bcrypt)
    (secret : GoStr) (ttl now : Int) (s : σ) (login password : GoStr)
    (hv : validateLogin login = .ok ()) (hp : password ≠ []) :
    (st.findByLogin s login = .error .userNotFound →
       Login st bc secret ttl now s login password = .error .invalidCredentials) ∧
    (∀ u, st.findByLogin s login = .ok u →
       bc.compareOk u.passwordHash password = false →
       Login st bc secret ttl now s login password = .error .invalidCredentials) ∧
    SvcErr.invalidCredentials ≠ SvcErr.userNotFound ∧
    (∀ e : StoreErr, SvcErr.invalidCredentials ≠ SvcErr.storeErr e) := by
  refine ⟨?_, ?_, by decide, fun e => by simp⟩
  · intro h
    simp [Login, hv, h, hp]
  · intro u hu hcmp
    simp [Login, hv, hu, hcmp, hp]

/-- Witness for C1: the empty demo store reports not-found for the demo
login and the login call yields invalid credentials. -/
theorem C1_witness :
    Login demoStore demoBcrypt demoSecret 100 0 [] lgDemo pwDemo =
      .error .invalidCredentials :=
  (C1_login_indistinguishable demoStore demoBcrypt demoSecret 100 0 []
    lgDemo pwDemo (by decide) (by decide)).1 (by decide)

/-- C7: `CreateAd` demands a non-empty title of at most 120 bytes, a
non-empty text, a non-zero user ID and a non-negative price; any
violation is returned as the validation-error kind wrapping the specific
reason, without consulting the stores (the result is independent of the
environment); an empty title yields the title-required reason and a
negative price the non-negative-price reason. -/
theorem C7_createAd_validation :
    (∀ ad : Ad, validateAd ad = .ok () ↔
      (ad.title ≠ [] ∧ golen ad.title ≤ 120 ∧ ad.text ≠ [] ∧ ad.userID ≠ 0 ∧
       0 ≤ ad.price)) ∧
    (∀ (ad : Ad) (r : Reason), validateAd ad = .error r →
       ∀ env env2 : AdsEnv, CreateAd env ad = .error (.invalidInput r) ∧
         CreateAd env ad = CreateAd env2 ad) ∧
    (∀ env : AdsEnv,
       CreateAd env adNoTitle = .error (.invalidInput .titleRequired) ∧
       CreateAd env adNegPrice = .error (.invalidInput .priceNegative)) := by
  refine ⟨validateAd_ok_iff, ?_, ?_⟩
  · intro ad r h env env2
    exact ⟨createAd_of_validate_error h env,
      (createAd_of_validate_error h env).trans (createAd_of_validate_error h env2).symm⟩
  · intro env
    exact ⟨createAd_of_validate_error (by decide) env,
           createAd_of_validate_error (by decide) env⟩

/-- Witness for C7 at the concrete empty-title ad. -/
theorem C7_witness :
    CreateAd envUserMissing adNoTitle = .error (.invalidInput .titleRequired) :=
  (C7_createAd_validation.2.2 envUserMissing).1

/-- C8: for a field-valid ad, `CreateAd` maps a user-store not-found to
the validation-error kind with the user-not-found reason, a foreign-key
violation from the ad store to the validation-error kind, a duplicate to
the conflict kind, and any other store failure to an internal error. -/
theorem C8_createAd_store_errors (env : AdsEnv) (ad : Ad)
    (hv : validateAd ad = .ok ()) :
    (env.findUserByID ad.userID = .error .userNotFound →
       CreateAd env ad = .error (.invalidInput .userNotFoundMsg)) ∧
    (∀ e, env.findUserByID ad.userID = .error e → e ≠ .userNotFound →
       CreateAd env ad = .error (.internal e)) ∧
    (∀ u, env.findUserByID ad.userID = .ok u →
      (env.createAd { ad with authorLogin := u.login } = .error .foreignKeyViolation →
         CreateAd env ad = .error (.invalidInput .invalidDataReference)) ∧
      (env.createAd { ad with authorLogin := u.login } = .error .adExists →
         CreateAd env ad = .error .conflict) ∧
      (∀ e, env.createAd { ad with authorLogin := u.login } = .error e →
         e ≠ .foreignKeyViolation → e ≠ .adExists →
         CreateAd env ad = .error (.internal e)) ∧
      (∀ adID, env.createAd { ad with authorLogin := u.login } = .ok adID →
         CreateAd env ad = .ok adID)) := by
  refine ⟨?_, ?_, ?_⟩
  · intro h; simp [CreateAd, hv, h]
  · intro e he hne; simp [CreateAd, hv, he, hne]
  · intro u hu
    refine ⟨?_, ?_, ?_, ?_⟩
    · intro h; simp [CreateAd, hv, hu, h]
    · intro h; simp [CreateAd, hv, hu, h]
    · intro e he h1 h2; simp [CreateAd, hv, hu, he, h1, h2]
    · intro adID h; simp [CreateAd, hv, hu, h]

/-- Witness for C8: a field-valid ad against a store whose user lookup
reports not-found. -/
theorem C8_witness :
    CreateAd envUserMissing adDemo = .error (.invalidInput .userNotFoundMsg) :=
  (C8_createAd_store_errors envUserMissing adDemo (by decide)).1 (by decide)

theorem validateListParamsSome_ok (p : ListAdsParams)
    (h : validateListParamsSome p = .ok ()) :
    (p.sortBy = "" ∨ p.sortBy = "price" ∨ p.sortBy = "created_at") ∧
    (p.order = "" ∨ p.order = "asc" ∨ p.order = "desc") ∧
    0 ≤ p.page ∧ 0 ≤ p.limit ∧ p.limit ≤ 100 ∧
    (∀ m, p.minPrice = some m → 0 ≤ m) ∧
    (∀ m, p.maxPrice = some m → 0 ≤ m) ∧
    (∀ a b, p.minPrice = some a → p.maxPrice = some b → a ≤ b) := by
  unfold validateListParamsSome at h
  split_ifs at h with h1 h2 h3 h4 h5 h6 h7 h8
  all_goals simp at h
  refine ⟨by tauto, by tauto, by omega, by omega, by omega, ?_, ?_, ?_⟩
  · intro m hm
    rw [hm] at h6
    simp at h6
    omega
  · intro m hm
    rw [hm] at h7
    simp at h7
    omega
  · intro a b ha hb
    rw [ha, hb] at h8
    simp at h8
    omega

theorem getOffset_eq (q : ListAdsParams) (h1 : 1 ≤ q.page) (h2 : 0 ≤ q.limit)
    (hA : q.page < 2 ^ 63) (hB : (q.page - 1) * q.limit < 2 ^ 63) :
    q.GetOffset = (q.page - 1) * q.limit ∧ 0 ≤ q.GetOffset := by
  unfold ListAdsParams.GetOffset
  by_cases hp : q.page ≤ 1
  · rw [if_pos hp]
    have hone : q.page = 1 := by omega
    rw [hone]
    simp
  · rw [if_neg hp]
    have hprod : 0 ≤ (q.page - 1) * q.limit := mul_nonneg (by omega) h2
    rw [@wrap64_eq_self (q.page - 1) (by omega) (by omega)]
    rw [wrap64_eq_self (by omega) hB]
    exact ⟨by simp, hprod⟩

theorem setDefaults_idem (p : ListAdsParams) :
    (p.SetDefaults).SetDefaults = p.SetDefaults := by
  obtain ⟨sb, od, pg, lm, mn, mx⟩ := p
  simp only [ListAdsParams.SetDefaults, ListAdsParams.mk.injEq]
  refine ⟨?_, ?_, ?_, ?_, trivial, trivial⟩
  · by_cases h : sb = ""
    · rw [if_pos h, if_neg (by decide)]
    · rw [if_neg h, if_neg h]
  · by_cases h : od = ""
    · rw [if_pos h, if_neg (by decide)]
    · rw [if_neg h, if_neg h]
  · split_ifs <;> omega
  · split_ifs <;> omega

/-- C4 (amended): for a validated listing query, a non-zero page is
at least 1 and a non-zero limit lies in [1,100]; a zero page defaults to
1 and a zero limit to 10; limit 100 is accepted and 101 rejected; the
offset is 0 for page at most 1 and equals (page-1)*limit whenever that
product fits in a signed 64-bit integer (on overflow the Go `int`
computation wraps, see the counterexample); page 1 yields offset 0 and
page 3 with limit 10 yields offset 20. -/
theorem C4_pagination_policy :
    (∀ p : ListAdsParams, validateListParamsSome p = .ok () →
       (p.page ≠ 0 → 1 ≤ p.page) ∧
       (p.limit ≠ 0 → 1 ≤ p.limit ∧ p.limit ≤ 100) ∧
       (p.page = 0 → (p.SetDefaults).page = 1) ∧
       (p.limit = 0 → (p.SetDefaults).limit = 10)) ∧
    (∀ p : ListAdsParams, p.page ≤ 1 → p.GetOffset = 0) ∧
    (∀ p : ListAdsParams, 1 < p.page → p.page < 2 ^ 63 → 0 ≤ p.limit →
       (p.page - 1) * p.limit < 2 ^ 63 →
       p.GetOffset = (p.page - 1) * p.limit) ∧
    validateListParamsSome pLimit100 = .ok () ∧
    validateListParamsSome pLimit101 = .error .limitTooLarge ∧
    pPage3.GetOffset = 20 := by
  refine ⟨?_, ?_, ?_, by decide, by decide, by decide⟩
  · intro p hok
    obtain ⟨-, -, hpg, hl0, hl100, -, -, -⟩ := validateListParamsSome_ok p hok
    refine ⟨by omega, fun _ => ⟨by omega, hl100⟩, ?_, ?_⟩
    · intro h0; simp [ListAdsParams.SetDefaults, h0]
    · intro h0; simp [ListAdsParams.SetDefaults, h0]
  · intro p h
    unfold ListAdsParams.GetOffset
    rw [if_pos h]
  · intro p h1 h2 h3 h4
    exact (getOffset_eq p (by omega) h3 h2 h4).1

/-- Witness for C4: the page-3/limit-10 query has offset 20. -/
theorem C4_witness : pPage3.GetOffset = (pPage3.page - 1) * pPage3.limit :=
  C4_pagination_policy.2.2.1 pPage3 (by decide) (by decide) (by decide) (by decide)

/-- C4 counterexample: the query with page 2^62 and limit 100 passes
validation but its offset wraps to -100, not (page-1)*limit. -/
theorem C4_counterexample :
    validateListParamsSome pOverflow = .ok () ∧
    pOverflow.GetOffset ≠ (pOverflow.page - 1) * pOverflow.limit ∧
    pOverflow.GetOffset = -100 := by decide

/-- C5: a non-whitelisted non-empty sortBy or order makes ListAds fail
with the validation-error kind naming the offending field; the checks
run in the spec's order with the first violation reported
(`specFirstViolation`); empty sortBy and order are defaulted to
created_at and desc. -/
theorem C5_listAds_first_violation :
    (∀ p, validateListParamsSome p = specFirstViolation p) ∧
    (∀ (store : ListAdsParams → Except StoreErr (List Ad)) (p : ListAdsParams),
       p.sortBy ≠ "" → p.sortBy ≠ "price" → p.sortBy ≠ "created_at" →
       ListAds store (some p) = .error (.invalidInput .invalidSortBy)) ∧
    (∀ (store : ListAdsParams → Except StoreErr (List Ad)) (p : ListAdsParams),
       (p.sortBy = "" ∨ p.sortBy = "price" ∨ p.sortBy = "created_at") →
       p.order ≠ "" → p.order ≠ "asc" → p.order ≠ "desc" →
       ListAds store (some p) = .error (.invalidInput .invalidOrder)) ∧
    (∀ p : ListAdsParams, p.sortBy = "" → (p.SetDefaults).sortBy = "created_at") ∧
    (∀ p : ListAdsParams, p.order = "" → (p.SetDefaults).order = "desc") := by
  refine ⟨fun p => rfl, ?_, ?_, ?_, ?_⟩
  · intro store p h1 h2 h3
    have hv : validateListParamsSome p = .error .invalidSortBy := by
      unfold validateListParamsSome
      rw [if_pos ⟨h1, h2, h3⟩]
    simp [ListAds, hv]
  · intro store p hs h1 h2 h3
    have hns : ¬(p.sortBy ≠ "" ∧ p.sortBy ≠ "price" ∧ p.sortBy ≠ "created_at") := by
      tauto
    have hv : validateListParamsSome p = .error .invalidOrder := by
      unfold validateListParamsSome
      rw [if_neg hns, if_pos ⟨h1, h2, h3⟩]
    simp [ListAds, hv]
  · intro p h
    simp [ListAdsParams.SetDefaults, h]
  · intro p h
    simp [ListAdsParams.SetDefaults, h]

/-- Witness for C5: the sortBy "name" query is rejected by ListAds with
the invalid-sort reason. -/
theorem C5_witness :
    ListAds demoListStore (some pBadSort) = .error (.invalidInput .invalidSortBy) :=
  C5_listAds_first_violation.2.1 demoListStore pBadSort (by decide) (by decide)
    (by decide)

/-- C6: present price bounds must each be non-negative and, when both
are present, ordered; the inverted window (500, 100) is rejected and the
window (100, 500) accepted. -/
theorem C6_price_window :
    (∀ p, validateListParamsSome p = .ok () →
       (∀ m, p.minPrice = some m → 0 ≤ m) ∧
       (∀ m, p.maxPrice = some m → 0 ≤ m) ∧
       (∀ a b, p.minPrice = some a → p.maxPrice = some b → a ≤ b)) ∧
    validateListParamsSome pMinMaxBad = .error .minAboveMax ∧
    validateListParamsSome pMinMax = .ok () := by
  refine ⟨?_, by decide, by decide⟩
  intro p hok
  obtain ⟨-, -, -, -, -, hmin, hmax, hrel⟩ := validateListParamsSome_ok p hok
  exact ⟨hmin, hmax, hrel⟩

/-- Witness for C6 at the accepted price window (100, 500). -/
theorem C6_witness : (0 : Int) ≤ 100 ∧ (0 : Int) ≤ 500 ∧ (100 : Int) ≤ 500 := by
  have h := C6_price_window.1 pMinMax (by decide)
  exact ⟨h.1 100 rfl, h.2.1 500 rfl, h.2.2 100 500 rfl rfl⟩

/-- C10 (amended): after SetDefaults, a validated query satisfies the
normalized invariant (whitelisted sort key and order, page at least 1,
limit in [1,100], present price bounds non-negative and ordered); the
offset equals (Page-1)*Limit and is non-negative whenever that product
fits in a signed 64-bit integer (on overflow it wraps and can be
negative, see the counterexample); and SetDefaults is idempotent. -/
theorem C10_normalized_invariant (p : ListAdsParams)
    (hok : validateListParamsSome p = .ok ()) :
    ((p.SetDefaults).sortBy = "price" ∨ (p.SetDefaults).sortBy = "created_at") ∧
    ((p.SetDefaults).order = "asc" ∨ (p.SetDefaults).order = "desc") ∧
    1 ≤ (p.SetDefaults).page ∧
    1 ≤ (p.SetDefaults).limit ∧ (p.SetDefaults).limit ≤ 100 ∧
    (∀ m, (p.SetDefaults).minPrice = some m → 0 ≤ m) ∧
    (∀ m, (p.SetDefaults).maxPrice = some m → 0 ≤ m) ∧
    (∀ a b, (p.SetDefaults).minPrice = some a →
       (p.SetDefaults).maxPrice = some b → a ≤ b) ∧
    ((p.SetDefaults).page < 2 ^ 63 →
       ((p.SetDefaults).page - 1) * (p.SetDefaults).limit < 2 ^ 63 →
       (p.SetDefaults).GetOffset =
         ((p.SetDefaults).page - 1) * (p.SetDefaults).limit ∧
       0 ≤ (p.SetDefaults).GetOffset) ∧
    (p.SetDefaults).SetDefaults = p.SetDefaults := by
  obtain ⟨hs, ho, hpg, hl0, hl100, hmin, hmax, hrel⟩ := validateListParamsSome_ok p hok
  have hq1 : 1 ≤ (p.SetDefaults).page := by
    simp only [ListAdsParams.SetDefaults]
    split_ifs <;> omega
  have hq2 : 0 ≤ (p.SetDefaults).limit := by
    simp only [ListAdsParams.SetDefaults]
    split_ifs <;> omega
  have hqmin : (p.SetDefaults).minPrice = p.minPrice := rfl
  have hqmax : (p.SetDefaults).maxPrice = p.maxPrice := rfl
  refine ⟨?_, ?_, hq1, ?_, ?_, ?_, ?_, ?_, ?_, setDefaults_idem p⟩
  · simp only [ListAdsParams.SetDefaults]
    rcases hs with h | h | h
    · right; rw [h, if_pos rfl]
    · left; rw [h, if_neg (by decide)]
    · right; rw [h, if_neg (by decide)]
  · simp only [ListAdsParams.SetDefaults]
    rcases ho with h | h | h
    · right; rw [h, if_pos rfl]
    · left; rw [h, if_neg (by decide)]
    · right; rw [h, if_neg (by decide)]
  · simp only [ListAdsParams.SetDefaults]
    split_ifs <;> omega
  · simp only [ListAdsParams.SetDefaults]
    split_ifs <;> omega
  · rw [hqmin]; exact hmin
  · rw [hqmax]; exact hmax
  · rw [hqmin, hqmax]; exact hrel
  · intro hA hB
    exact getOffset_eq (p.SetDefaults) hq1 hq2 hA hB

/-- Witness for C10 at the accepted price-window query. -/
theorem C10_witness :
    (pMinMax.SetDefaults).SetDefaults = pMinMax.SetDefaults := by
  have h := C10_normalized_invariant pMinMax (by decide)
  exact h.2.2.2.2.2.2.2.2.2

/-- C10 counterexample: the validated query with page 2^57+1 and limit
65 normalizes to an offset that wraps to a negative value. -/
theorem C10_counterexample :
    validateListParamsSome pOverflowNeg = .ok () ∧
    (pOverflowNeg.SetDefaults).GetOffset < 0 := by decide

/-- C9: when a registration succeeds and the store contract holds for
the state it produced (the stored user is found again by login and by
ID, and it carries the hash of the registered password, which the hash
comparison accepts), a subsequent login with the same credentials
succeeds; both the registration token and the login token, verified
before their expiry with the same secret, resolve back to exactly the
registered user; and the decimal subject written by token generation
scans back to the identical user ID. -/
theorem C9_register_login_roundtrip {σ : Type} (st : UserStore σ) (bc : Bcrypt)
    (secret : GoStr) (ttl now1 now2 now3 : Int) (s : σ)
    (login password : GoStr) (tok : Token) (u : User) (s2 : σ)
    (hreg : Register st bc secret ttl now1 s login password = .ok (tok, u, s2))
    (hfind : st.findByLogin s2 login = .ok u)
    (hfindID : st.findUserByID s2 u.id = .ok u)
    (hhash : u.passwordHash = bc.genHash password)
    (hbc : bc.compareOk (bc.genHash password) password = true)
    (hexp2 : now3 < now2 + ttl) (hexp1 : now3 < now1 + ttl) :
    Login st bc secret ttl now2 s2 login password =
      .ok (generateToken secret ttl now2 u) ∧
    ParseToken st s2 secret now3 (generateToken secret ttl now2 u) = .ok u ∧
    tok = generateToken secret ttl now1 u ∧
    ParseToken st s2 secret now3 tok = .ok u ∧
    sscanfInt (formatInt u.id) = some u.id := by
  cases hvl : validateLogin login with
  | error e => simp [Register, hvl] at hreg
  | ok v =>
  cases v
  cases hvp : validatePassword password with
  | error e => simp [Register, hvl, hvp] at hreg
  | ok v =>
  cases v
  cases hcu : st.createUser s { id := 0, login := login, passwordHash := bc.genHash password } with
  | error e =>
    by_cases he : e = .userExists <;> simp [Register, hvl, hvp, hcu, he] at hreg
  | ok pair =>
  obtain ⟨u', s2'⟩ := pair
  simp only [Register, hvl, hvp, hcu, Except.ok.injEq, Prod.mk.injEq] at hreg
  obtain ⟨htok, hu, hs2⟩ := hreg
  rw [hu] at htok
  have hlen : 8 ≤ golen password := ((validatePassword_ok_iff password).mp hvp).1
  have hne : password ≠ [] := ne_nil_of_golen (k := 8) (by omega) hlen
  have hfresh : ∀ nw : Int, now3 < nw + ttl →
      ParseToken st s2 secret now3 (generateToken secret ttl nw u) = .ok u := by
    intro nw hexp
    have hnexp : ¬(nw + ttl ≤ now3) := by omega
    simp [ParseToken, generateToken, hnexp, sscanfInt_formatInt, hfindID]
  refine ⟨?_, hfresh now2 hexp2, htok.symm, ?_, sscanfInt_formatInt u.id⟩
  · simp [Login, hvl, hne, hfind, hhash, hbc]
  · rw [← htok]
    exact hfresh now1 hexp1

/-- Witness for C9: registering the demo credentials against the empty
demo store, then logging in and verifying the fresh token. -/
theorem C9_witness :
    Login demoStore demoBcrypt demoSecret 100 1 demoState1 lgDemo pwDemo =
      .ok (generateToken demoSecret 100 1 demoUser1) ∧
    ParseToken demoStore demoState1 demoSecret 2
      (generateToken demoSecret 100 1 demoUser1) = .ok demoUser1 := by
  have h := C9_register_login_roundtrip demoStore demoBcrypt demoSecret 100 0 1 2 []
    lgDemo pwDemo (generateToken demoSecret 100 0 demoUser1) demoUser1 demoState1
    (by decide) (by decide) (by decide) (by decide) (by decide) (by decide) (by decide)
  exact ⟨h.1, h.2.1⟩

end Market
